import Mathlib

/-!
# Verification of the NANDA adapter SDK's Python bridge (`src/lib/bridge.js`)

Shallow embedding of the `PythonBridge` class: its pending-request map
(`messageQueue`), per-request timers, the stdout line splitter, the
response handler `_handlePythonResponse`, `executeCommand`, `stop`, the
process-exit handler, and `start`'s guard and init-timeout path.

The asynchronous event-driven JavaScript is modelled as a step machine on an
explicit `BridgeSt` state; each operation returns the new state together with
the list of observable `Action`s it performs (settling a caller's promise,
arming/clearing a timer, sending a signal, spawning a process, throwing).
JSON values are modelled by the inductive `Json`; `JSON.parse` is modelled by
`parseLine` on the protocol subset (objects, arrays, strings without escape
sequences, integers, booleans, null).
-/

namespace NandaBridge

/-- JSON values, as far as the bridge inspects them. -/
inductive Json where
  | null
  | bool (b : Bool)
  | num (n : Int)
  | str (s : String)
  | arr (elems : List Json)
  | obj (fields : List (String × Json))

/-- Field access on a JSON object (`response.id`, `response.status`, ...);
`none` models JavaScript `undefined`. -/
def lookupField : List (String × Json) → String → Option Json
  | [], _ => none
  | (k', v) :: rest, k => if k' = k then some v else lookupField rest k

/-- `r.get k` is JavaScript `r[k]` for the fields the bridge reads. -/
def Json.get : Json → String → Option Json
  | .obj fs, k => lookupField fs k
  | _, _ => none

/-- JavaScript truthiness of a possibly-absent JSON value
(`undefined`, `null`, `false`, `0` and `""` are falsy). -/
def jsTruthy : Option Json → Bool
  | none => false
  | some .null => false
  | some (.bool b) => b
  | some (.num n) => n != 0
  | some (.str s) => s != ""
  | some (.arr _) => true
  | some (.obj _) => true

/-! ## The stream line splitter of `_setupProcessHandlers`

`data.toString().split('\n').filter(line => line.trim())`, then each kept
line is fed to `JSON.parse`; lines that fail to parse are dropped (logged in
debug mode only).  Characters stand in for bytes.  -/

/-- JavaScript whitespace as relevant to `String.prototype.trim` on
protocol output. -/
def isWsChar (c : Char) : Bool :=
  c = ' ' || c = '\t' || c = '\n' || c = '\r'

/-- `String.prototype.split('\n')` on a character list. -/
def splitLines : List Char → List (List Char)
  | [] => [[]]
  | c :: rest =>
    if c = '\n' then [] :: splitLines rest
    else
      match splitLines rest with
      | [] => [[c]]
      | l :: ls => (c :: l) :: ls

/-- `line => line.trim()` used as a filter predicate: keep the line iff its
trim is a nonempty (truthy) string. -/
def keepLine (l : List Char) : Bool :=
  l.any (fun c => !isWsChar c)

/-- The lines one `data` chunk contributes to the parse loop. -/
def keptLines (data : List Char) : List (List Char) :=
  (splitLines data).filter keepLine

/-! ## A model of `JSON.parse` (protocol subset)

Fuel-indexed recursive-descent parser for the subset of JSON the protocol
uses: objects, arrays, strings without escape sequences, optionally signed
integers, `true`, `false`, `null`, with surrounding whitespace. -/

/-- Skip leading JSON whitespace. -/
def skipWs : List Char → List Char
  | [] => []
  | c :: rest => if isWsChar c then skipWs rest else c :: rest

/-- Parse the body of a string literal after the opening quote
(escape sequences are outside the modelled subset). -/
def parseStrBody : List Char → Option (List Char × List Char)
  | [] => none
  | c :: rest =>
    if c = '"' then some ([], rest)
    else if c = '\\' then none
    else (parseStrBody rest).map (fun p => (c :: p.1, p.2))

/-- Parse a run of decimal digits into a natural number. -/
def parseDigits : List Char → Nat → Nat × List Char
  | c :: rest, acc =>
    if c.isDigit then parseDigits rest (acc * 10 + (c.toNat - 48))
    else (acc, c :: rest)
  | [], acc => (acc, [])

mutual

/-- Parse one JSON value; fuel bounds the nesting depth. -/
def parseVal : Nat → List Char → Option (Json × List Char)
  | 0, _ => none
  | fuel + 1, cs =>
    match skipWs cs with
    | '"' :: rest => (parseStrBody rest).map (fun p => (Json.str (String.mk p.1), p.2))
    | 't' :: 'r' :: 'u' :: 'e' :: rest => some (Json.bool true, rest)
    | 'f' :: 'a' :: 'l' :: 's' :: 'e' :: rest => some (Json.bool false, rest)
    | 'n' :: 'u' :: 'l' :: 'l' :: rest => some (Json.null, rest)
    | '{' :: rest =>
      (match skipWs rest with
       | '}' :: r2 => some (Json.obj [], r2)
       | r2 => parseFieldsAux fuel [] r2)
    | '[' :: rest =>
      (match skipWs rest with
       | ']' :: r2 => some (Json.arr [], r2)
       | r2 => parseElemsAux fuel [] r2)
    | '-' :: c :: rest =>
      if c.isDigit then
        let p := parseDigits (c :: rest) 0
        some (Json.num (-(p.1 : Int)), p.2)
      else none
    | c :: rest =>
      if c.isDigit then
        let p := parseDigits (c :: rest) 0
        some (Json.num (p.1 : Int), p.2)
      else none
    | [] => none

/-- Parse `"key": value` pairs separated by commas, until `}`. -/
def parseFieldsAux : Nat → List (String × Json) → List Char → Option (Json × List Char)
  | 0, _, _ => none
  | fuel + 1, acc, cs =>
    match skipWs cs with
    | '"' :: rest =>
      match parseStrBody rest with
      | none => none
      | some (key, afterKey) =>
        match skipWs afterKey with
        | ':' :: afterColon =>
          match parseVal fuel afterColon with
          | none => none
          | some (v, afterVal) =>
            match skipWs afterVal with
            | ',' :: more => parseFieldsAux fuel (acc ++ [(String.mk key, v)]) more
            | '}' :: more => some (Json.obj (acc ++ [(String.mk key, v)]), more)
            | _ => none
        | _ => none
    | _ => none

/-- Parse array elements separated by commas, until `]`. -/
def parseElemsAux : Nat → List Json → List Char → Option (Json × List Char)
  | 0, _, _ => none
  | fuel + 1, acc, cs =>
    match parseVal fuel cs with
    | none => none
    | some (v, afterVal) =>
      match skipWs afterVal with
      | ',' :: more => parseElemsAux fuel (acc ++ [v]) more
      | ']' :: more => some (Json.arr (acc ++ [v]), more)
      | _ => none

end

/-- `JSON.parse(line)`: the whole line must be one value surrounded by
optional whitespace. -/
def parseLine (cs : List Char) : Option Json :=
  match parseVal (cs.length + 1) cs with
  | some (v, rest) => if skipWs rest = [] then some v else none
  | none => none

/-- The sequence of parsed protocol messages produced by a sequence of stdout
chunks: each chunk is split and filtered independently (the code keeps no
buffer between chunks), and each kept line is fed to `JSON.parse`. -/
def parsedOfChunks (chunks : List (List Char)) : List Json :=
  (chunks.flatMap keptLines).filterMap parseLine

/-! ## Bridge state

`messageQueue` models `this.messageQueue : Map<id, {resolve, reject, timer}>`
as an insertion-ordered association list from correlation id to the command
name captured by the entry's callbacks.  `armedTimers` holds the per-request
timers that are currently armed (set by `setTimeout`, not yet fired and not
yet `clearTimeout`-ed), each with the command name its callback captured.
`hasProcess` is `this.process !== null`, `processAlive` is whether the
spawned worker is actually running, `processKilled` is Node's
`child.killed` flag (a signal was sent via `kill()`). -/

structure BridgeSt where
  timeoutMs : Nat
  isRunning : Bool
  hasProcess : Bool
  processAlive : Bool
  processKilled : Bool
  messageQueue : List (String × String)
  armedTimers : List (String × String)
  readyWaiter : Bool
deriving Repr, DecidableEq

/-- Which code path removed a pending entry and settled its promise. -/
inductive RemPath where
  | responseDelivery
  | timeoutFired
  | reset
  | writeFailure
deriving Repr, DecidableEq

/-- How a pending caller's promise is settled. -/
inductive Outcome where
  | resolveVal (v : Json)
  | rejectErr (e : Json)

/-- Observable actions a bridge operation performs. -/
inductive Action where
  | settle (id : String) (path : RemPath) (o : Outcome)
  | clearTimer (id : String)
  | setTimer (id : String) (ms : Nat)
  | killSig (sig : String)
  | spawnProc
  | threw (msg : String)
  | scheduleKillCheck (ms : Nat)
  | dispatchEvent (name : Json) (data : Json)

/-- `Map.get`-style lookup in the pending map (keys are unique in use). -/
def lookupEntry : List (String × String) → String → Option String
  | [], _ => none
  | (k, v) :: rest, id => if k = id then some v else lookupEntry rest id

/-- `Map.delete(id)`: remove the entry with the given key. -/
def eraseEntry : List (String × String) → String → List (String × String)
  | [], _ => []
  | (k, v) :: rest, id => if k = id then rest else (k, v) :: eraseEntry rest id

/-- `Map.set(id, v)`: overwrite in place if the key exists, else append. -/
def mapSet : List (String × String) → String → String → List (String × String)
  | [], k, v => [(k, v)]
  | (k', v') :: rest, k, v =>
    if k' = k then (k', v) :: rest else (k', v') :: mapSet rest k v

/-! ## `executeCommand` (bridge.js lines 67-100) -/

/-- The state right after `executeCommand` has created the timer and put the
entry into `messageQueue` (lines 81-86), i.e. before the `stdin.write` on
line 89 is attempted. -/
def execRegistered (s : BridgeSt) (id cmd : String) : BridgeSt :=
  { s with armedTimers := s.armedTimers ++ [(id, cmd)],
           messageQueue := mapSet s.messageQueue id cmd }

/-- `executeCommand(command, data)` up to and including the outbound write
attempt.  `id` is the freshly generated uuid; `wr` is the outcome of
`this.process.stdin.write(...)` (`.error e` models the write throwing `e`).
When the bridge is not running it throws synchronously; otherwise it arms the
timeout timer, registers the entry, and attempts the write; a throwing write
clears the timer, deletes the entry and rejects with the write error
(lines 94-98). -/
def executeCommand (s : BridgeSt) (id cmd : String) (wr : Except Json Unit) :
    BridgeSt × List Action :=
  if s.isRunning then
    let s1 := execRegistered s id cmd
    match wr with
    | .ok _ => (s1, [.setTimer id s.timeoutMs])
    | .error e =>
      ({ s1 with messageQueue := eraseEntry s1.messageQueue id,
                 armedTimers := eraseEntry s1.armedTimers id },
       [.setTimer id s.timeoutMs, .clearTimer id,
        .settle id .writeFailure (.rejectErr e)])
  else (s, [.threw "Bridge is not running"])

/-! ## `_handlePythonResponse` (bridge.js lines 198-228) -/

/-- JavaScript strict equality `v === 'lit'` between a possibly-absent JSON
value and a string literal. -/
def isStrVal (o : Option Json) (t : String) : Bool :=
  match o with
  | some (Json.str s) => s = t
  | _ => false

/-- `response.id && this.messageQueue.has(response.id)`: the guard matches
only when `response.id` is a truthy string that is a key of the map (a
non-string or falsy id, or an unknown id, falls through to the
event/ready checks). -/
def respIdMatch (s : BridgeSt) (r : Json) : Option (String × String) :=
  match r.get "id" with
  | some (Json.str id) =>
    if id = "" then none
    else (lookupEntry s.messageQueue id).map (fun cmd => (id, cmd))
  | _ => none

/-- One parsed message delivered to `_handlePythonResponse`.  A matched
pending id has its timer cleared and entry deleted, then is resolved with
`response.result || response` on status `"success"` and otherwise rejected
with `new Error(response.error || 'Unknown error')`; unmatched messages are
routed by their `type` (`event`, `ready`) and everything else is ignored. -/
def handleResponse (s : BridgeSt) (r : Json) : BridgeSt × List Action :=
  match respIdMatch s r with
  | some (id, _cmd) =>
    let s' := { s with messageQueue := eraseEntry s.messageQueue id,
                       armedTimers := eraseEntry s.armedTimers id }
    let o : Outcome :=
      if isStrVal (r.get "status") "success" then
        .resolveVal (if jsTruthy (r.get "result") then (r.get "result").getD .null else r)
      else
        .rejectErr (if jsTruthy (r.get "error") then (r.get "error").getD .null
                    else .str "Unknown error")
    (s', [.clearTimer id, .settle id .responseDelivery o])
  | none =>
    if isStrVal (r.get "type") "event" then
      (s, [.dispatchEvent ((r.get "name").getD .null) ((r.get "data").getD .null)])
    else if isStrVal (r.get "type") "ready" then
      ({ s with readyWaiter := false }, [])
    else (s, [])

/-! ## The per-request timeout callback (bridge.js lines 81-84) -/

/-- The timer callback armed for `(id, cmd)` firing: deletes the entry and
rejects with `Command timeout: ${command}`.  Meaningful only when the timer
is still armed; the step machine guards on that. -/
def timeoutFire (s : BridgeSt) (id cmd : String) : BridgeSt × List Action :=
  ({ s with armedTimers := eraseEntry s.armedTimers id,
            messageQueue := eraseEntry s.messageQueue id },
   [.settle id .timeoutFired (.rejectErr (.str ("Command timeout: " ++ cmd)))])

/-! ## The `exit` handler (bridge.js lines 173-186) -/

/-- The `process.on('exit')` handler: clears `isRunning`, then for every
pending entry clears its timer and rejects with
`Python process exited with code ${code}`, and empties the map. -/
def procExit (s : BridgeSt) (code : Int) : BridgeSt × List Action :=
  ({ s with isRunning := false, processAlive := false,
            messageQueue := [], armedTimers := [] },
   s.messageQueue.flatMap (fun e =>
     [.clearTimer e.1,
      .settle e.1 .reset
        (.rejectErr (.str ("Python process exited with code " ++ toString code)))]))

/-! ## `stop` (bridge.js lines 105-142) -/

/-- The synchronous tail of `stop()` (lines 122-141): if a process handle
exists and `killed` is not set, send `SIGTERM` and schedule the 5000 ms
SIGKILL check; then set `isRunning = false`, null the process handle, and
reject every pending entry with `Bridge stopped`, clearing its timer. -/
def stopSyncTail (s : BridgeSt) : BridgeSt × List Action :=
  let s1 := if s.hasProcess && !s.processKilled then { s with processKilled := true } else s
  let a1 : List Action :=
    if s.hasProcess && !s.processKilled then
      [.killSig "SIGTERM", .scheduleKillCheck 5000]
    else []
  ({ s1 with isRunning := false, hasProcess := false,
             messageQueue := [], armedTimers := [] },
   a1 ++ s1.messageQueue.flatMap (fun e =>
     [.clearTimer e.1, .settle e.1 .reset (.rejectErr (.str "Bridge stopped"))]))

/-- The `setTimeout(..., 5000)` callback scheduled inside `stop()`
(lines 126-130): `if (this.process && !this.process.killed)
this.process.kill('SIGKILL')`. -/
def killCheckFire (s : BridgeSt) : BridgeSt × List Action :=
  if s.hasProcess && !s.processKilled then
    ({ s with processKilled := true }, [.killSig "SIGKILL"])
  else (s, [])

/-! ## The event step machine

Interleavings of the asynchronous callbacks are traces of `Ev` events; a
timer-fire event for a timer that is no longer armed is a no-op (a cleared
timer's callback never runs). -/

inductive Ev where
  | exec (id cmd : String) (wr : Except Json Unit)
  | response (r : Json)
  | timerFire (id cmd : String)
  | procExited (code : Int)
  | stopTail

def step (s : BridgeSt) : Ev → BridgeSt × List Action
  | .exec id cmd wr => executeCommand s id cmd wr
  | .response r => handleResponse s r
  | .timerFire id cmd =>
    if (id, cmd) ∈ s.armedTimers then timeoutFire s id cmd else (s, [])
  | .procExited code => procExit s code
  | .stopTail => stopSyncTail s

/-- Run a trace of events, accumulating the performed actions. -/
def runEvents : BridgeSt → List Ev → BridgeSt × List Action
  | s, [] => (s, [])
  | s, e :: es =>
    let q := step s e
    let r := runEvents q.1 es
    (r.1, q.2 ++ r.2)

/-! ## `stop` and `start` as whole calls -/

/-- A whole `stop()` call: the guard on line 106 returns immediately when the
bridge is not running; otherwise the best-effort `shutdown` command phase
runs (any events interleaved while `stop` awaits it, abstracted as
`shutdownPhase`; its failure is swallowed), followed by the synchronous
tail. -/
def stopCall (s : BridgeSt) (shutdownPhase : List Ev) : BridgeSt × List Action :=
  if s.isRunning then
    let p := runEvents s shutdownPhase
    let q := stopSyncTail p.1
    (q.1, p.2 ++ q.2)
  else (s, [])

/-- A whole `start()` call.  When already running it throws
`Bridge is already running` before doing anything (line 33-35, outside the
`try`).  Otherwise it spawns the worker and waits for the ready signal;
`readyArrives` says whether the worker ever emits `{type:"ready"}` within
the init window.  If not, the `_waitForReady` timer (armed for
`options.timeout` ms) rejects with `Python bridge initialization timeout`,
which the `catch` on line 59 rewraps; nothing in the failure path kills or
clears `this.process`, so the spawned worker stays alive. -/
def startCall (s : BridgeSt) (readyArrives : Bool) :
    BridgeSt × List Action × Except String Unit :=
  if s.isRunning then
    (s, [.threw "Bridge is already running"], .error "Bridge is already running")
  else
    let s1 := { s with hasProcess := true, processAlive := true,
                       processKilled := false, readyWaiter := !readyArrives }
    if readyArrives then
      ({ s1 with isRunning := true },
       [.spawnProc, .setTimer "init" s.timeoutMs, .clearTimer "init"], .ok ())
    else
      (s1, [.spawnProc, .setTimer "init" s.timeoutMs],
       .error "Failed to start Python bridge: Python bridge initialization timeout")

/-- The constructor's state (`new PythonBridge({timeout})`). -/
def initBridge (timeoutMs : Nat) : BridgeSt :=
  { timeoutMs := timeoutMs, isRunning := false, hasProcess := false,
    processAlive := false, processKilled := false,
    messageQueue := [], armedTimers := [], readyWaiter := false }

/-- A bridge that has started successfully and is running with a live
worker. -/
def runningBridge (timeoutMs : Nat) : BridgeSt :=
  { initBridge timeoutMs with isRunning := true, hasProcess := true,
                              processAlive := true }

/-! ## Invariants of the pending map -/

/-- The correlation ids currently pending. -/
def keysOf (l : List (String × String)) : List String := l.map Prod.fst

/-- The bridge's correlator invariant: every armed per-request timer belongs
to exactly the pending entries (same ids, same captured commands), and no
correlation id is pending twice. -/
def GoodSt (s : BridgeSt) : Prop :=
  s.armedTimers = s.messageQueue ∧ (keysOf s.messageQueue).Nodup

instance (s : BridgeSt) : Decidable (GoodSt s) := by
  unfold GoodSt; infer_instance

/-- The uuid freshness precondition at one event: an `exec` event uses a
correlation id that is not currently pending (uuidv4 collisions are excluded
by assumption). -/
def freshAt (s : BridgeSt) : Ev → Prop
  | .exec id _ _ => lookupEntry s.messageQueue id = none
  | _ => True

instance (s : BridgeSt) (e : Ev) : Decidable (freshAt s e) :=
  match e with
  | .exec id _ _ => inferInstanceAs (Decidable (lookupEntry s.messageQueue id = none))
  | .response _ => .isTrue trivial
  | .timerFire _ _ => .isTrue trivial
  | .procExited _ => .isTrue trivial
  | .stopTail => .isTrue trivial

/-- Freshness along a whole trace. -/
def FreshTrace : BridgeSt → List Ev → Prop
  | _, [] => True
  | s, e :: es => freshAt s e ∧ FreshTrace (step s e).1 es

def decFreshTrace : (s : BridgeSt) → (evs : List Ev) → Decidable (FreshTrace s evs)
  | _, [] => .isTrue trivial
  | s, e :: es => @instDecidableAnd _ _ inferInstance (decFreshTrace (step s e).1 es)

instance (s : BridgeSt) (evs : List Ev) : Decidable (FreshTrace s evs) :=
  decFreshTrace s evs

/-- How many times an action list settles the given correlation id
(fires its resolve or reject callback). -/
def settleCount (id : String) (acts : List Action) : Nat :=
  acts.countP (fun a => match a with
    | .settle id' _ _ => id' = id
    | _ => false)

/-- How many pending entries carry the given correlation id. -/
def countKey (id : String) (l : List (String × String)) : Nat :=
  l.countP (fun p => p.1 = id)

/-- Whether one event accepts a new command under the given id
(`executeCommand` past its running guard). -/
def acceptedAt (s : BridgeSt) (e : Ev) (id : String) : Nat :=
  match e with
  | .exec id' _ _ => if s.isRunning then (if id' = id then 1 else 0) else 0
  | _ => 0

/-- How many commands a trace accepts under the given id. -/
def acceptedCount : BridgeSt → List Ev → String → Nat
  | _, [], _ => 0
  | s, e :: es, id => acceptedAt s e id + acceptedCount (step s e).1 es id

/-- Does the first character list start with the second? -/
def startsWithL : List Char → List Char → Bool
  | _, [] => true
  | [], _ :: _ => false
  | a :: as, b :: bs => a = b && startsWithL as bs

/-- Does the first character list contain the second as a contiguous run? -/
def containsChars : List Char → List Char → Bool
  | [], nee => decide (nee = [])
  | c :: t, nee => startsWithL (c :: t) nee || containsChars t nee

/-- Substring test (used to state whether an error message carries a
command name). -/
def strContains (hay nee : String) : Bool :=
  containsChars hay.data nee.data

/-- A sample two-event trace: one accepted command, then its successful
response. -/
def sampleTrace : List Ev :=
  [Ev.exec "a" "get_status" (Except.ok ()),
   Ev.response (Json.obj [("id", Json.str "a"), ("status", Json.str "success"),
     ("result", Json.str "ok")])]

/-! ### Helper lemmas on the association-list operations -/

theorem lookupEntry_eq_none {l : List (String × String)} {id : String} :
    lookupEntry l id = none ↔ id ∉ keysOf l := by
  induction l with
  | nil => simp [lookupEntry, keysOf]
  | cons p rest ih =>
    obtain ⟨k, v⟩ := p
    by_cases h : k = id
    · subst h; simp [lookupEntry, keysOf]
    · have hik : id ≠ k := fun hh => h hh.symm
      simp [lookupEntry, keysOf, h, ih, hik]

theorem mapSet_of_none {l : List (String × String)} {k v : String}
    (h : lookupEntry l k = none) : mapSet l k v = l ++ [(k, v)] := by
  induction l with
  | nil => simp [mapSet]
  | cons p rest ih =>
    obtain ⟨k', v'⟩ := p
    by_cases hk : k' = k
    · simp [lookupEntry, hk] at h
    · simp [lookupEntry, hk] at h
      simp [mapSet, hk, ih h]

theorem eraseEntry_append_of_none {l : List (String × String)} {id v : String}
    (h : lookupEntry l id = none) : eraseEntry (l ++ [(id, v)]) id = l := by
  induction l with
  | nil => simp [eraseEntry]
  | cons p rest ih =>
    obtain ⟨k', v'⟩ := p
    by_cases hk : k' = id
    · simp [lookupEntry, hk] at h
    · simp [lookupEntry, hk] at h
      simp [eraseEntry, hk, ih h]

theorem eraseEntry_sublist (l : List (String × String)) (id : String) :
    (eraseEntry l id).Sublist l := by
  induction l with
  | nil => simp [eraseEntry]
  | cons p rest ih =>
    obtain ⟨k, v⟩ := p
    by_cases hk : k = id
    · simp only [eraseEntry, if_pos hk]
      exact List.sublist_cons_self _ _
    · simpa [eraseEntry, hk] using ih.cons₂ (k, v)

theorem nodup_keys_eraseEntry {l : List (String × String)} {id : String}
    (h : (keysOf l).Nodup) : (keysOf (eraseEntry l id)).Nodup :=
  ((eraseEntry_sublist l id).map Prod.fst).nodup h

theorem lookup_isSome_of_mem {l : List (String × String)} {id cmd : String}
    (h : (id, cmd) ∈ l) : (lookupEntry l id).isSome := by
  induction l with
  | nil => simp at h
  | cons p rest ih =>
    obtain ⟨k, v⟩ := p
    by_cases hk : k = id
    · simp [lookupEntry, hk]
    · rcases List.mem_cons.mp h with h' | h'
      · simp at h'
        exact absurd h'.1.symm hk
      · simpa [lookupEntry, hk] using ih h'

theorem countKey_append (id : String) (l l' : List (String × String)) :
    countKey id (l ++ l') = countKey id l + countKey id l' :=
  List.countP_append _ _ _

theorem countKey_erase_self {l : List (String × String)} {id : String}
    (h : (lookupEntry l id).isSome) :
    countKey id (eraseEntry l id) + 1 = countKey id l := by
  induction l with
  | nil => simp [lookupEntry] at h
  | cons p rest ih =>
    obtain ⟨k, v⟩ := p
    by_cases hk : k = id
    · simp [eraseEntry, countKey, List.countP_cons, hk, Nat.add_comm]
    · simp only [lookupEntry, if_neg hk] at h
      have hrec := ih h
      simp only [eraseEntry, if_neg hk, countKey, List.countP_cons] at *
      simp [hk] at hrec ⊢
      omega

theorem countKey_erase_ne {l : List (String × String)} {id id' : String}
    (h : id' ≠ id) : countKey id' (eraseEntry l id) = countKey id' l := by
  induction l with
  | nil => simp [eraseEntry]
  | cons p rest ih =>
    obtain ⟨k, v⟩ := p
    by_cases hk : k = id
    · subst hk
      simp [eraseEntry, countKey, List.countP_cons, Ne.symm h]
    · simp only [eraseEntry, if_neg hk, countKey, List.countP_cons]
      simp only [countKey] at ih
      rw [ih]

theorem countKey_erase_none {l : List (String × String)} {id id' : String}
    (h : lookupEntry l id = none) : countKey id' (eraseEntry l id) = countKey id' l := by
  induction l with
  | nil => simp [eraseEntry]
  | cons p rest ih =>
    obtain ⟨k, v⟩ := p
    by_cases hk : k = id
    · simp [lookupEntry, hk] at h
    · simp only [lookupEntry, if_neg hk] at h
      simp only [eraseEntry, if_neg hk, countKey, List.countP_cons]
      simp only [countKey] at ih
      rw [ih h]

theorem settleCount_flatMap (id : String) (q : List (String × String))
    (p : RemPath) (g : String × String → Outcome) :
    settleCount id (q.flatMap (fun e => [.clearTimer e.1, .settle e.1 p (g e)]))
      = countKey id q := by
  induction q with
  | nil => simp [settleCount, countKey]
  | cons e rest ih =>
    simp only [List.flatMap_cons, settleCount, countKey, List.countP_append,
      List.countP_cons] at *
    simp only [ih]
    rw [Nat.add_comm]
    simp

theorem respIdMatch_lookup {s : BridgeSt} {r : Json} {id cmd : String}
    (h : respIdMatch s r = some (id, cmd)) :
    lookupEntry s.messageQueue id = some cmd := by
  unfold respIdMatch at h
  cases hid : r.get "id" with
  | none => simp [hid] at h
  | some j =>
    cases j <;> simp [hid] at h
    case str sId =>
      by_cases he : sId = ""
      · simp [he] at h
      · simp [he] at h
        cases hl : lookupEntry s.messageQueue sId with
        | none => simp [hl] at h
        | some c =>
          simp [hl] at h
          obtain ⟨h1, h2⟩ := h
          subst h1; subst h2
          exact hl

/-- One step of the bridge preserves the correlator invariant and satisfies
the settlement conservation law: settlements performed plus entries still
pending equals entries previously pending plus commands newly accepted
(each per correlation id). -/
theorem step_invariant (s : BridgeSt) (e : Ev) (hg : GoodSt s) (hf : freshAt s e) :
    GoodSt (step s e).1 ∧
      ∀ id, settleCount id (step s e).2 + countKey id (step s e).1.messageQueue
          = countKey id s.messageQueue + acceptedAt s e id := by
  obtain ⟨ht, hn⟩ := hg
  cases e with
  | exec id' cmd wr =>
    have hf' : lookupEntry s.messageQueue id' = none := hf
    by_cases hr : s.isRunning
    · have hm : mapSet s.messageQueue id' cmd = s.messageQueue ++ [(id', cmd)] :=
        mapSet_of_none hf'
      have hkeys : id' ∉ keysOf s.messageQueue := lookupEntry_eq_none.mp hf'
      cases wr with
      | ok u =>
        refine ⟨⟨?_, ?_⟩, ?_⟩
        · simp [step, executeCommand, execRegistered, hr, hm, ht]
        · have hkeys' : id' ∉ List.map Prod.fst s.messageQueue := by
            simpa [keysOf] using hkeys
          have hn' : (List.map Prod.fst s.messageQueue).Nodup := by
            simpa [keysOf] using hn
          simp [step, executeCommand, execRegistered, hr, hm, keysOf,
            List.nodup_append, hn', hkeys']
        · intro id
          simp [step, executeCommand, execRegistered, hr, hm, settleCount,
            countKey, List.countP_append, List.countP_cons, acceptedAt]
      | error err =>
        have herase : eraseEntry (s.messageQueue ++ [(id', cmd)]) id' = s.messageQueue :=
          eraseEntry_append_of_none hf'
        refine ⟨⟨?_, ?_⟩, ?_⟩
        · simp [step, executeCommand, execRegistered, hr, hm, ht, herase]
        · simp [step, executeCommand, execRegistered, hr, hm, herase, hn]
        · intro id
          simp [step, executeCommand, execRegistered, hr, hm, herase, settleCount,
            countKey, List.countP_cons, acceptedAt]
          by_cases hid : id' = id <;> simp [hid] <;> omega
    · refine ⟨?_, ?_⟩
      · simpa [step, executeCommand, hr] using (⟨ht, hn⟩ : GoodSt s)
      · intro id
        simp [step, executeCommand, hr, settleCount, countKey, acceptedAt]
  | response r =>
    cases hm : respIdMatch s r with
    | none =>
      by_cases hev : isStrVal (r.get "type") "event"
      · refine ⟨?_, ?_⟩
        · simpa [step, handleResponse, hm, hev] using (⟨ht, hn⟩ : GoodSt s)
        · intro id
          simp [step, handleResponse, hm, hev, settleCount, acceptedAt]
      · by_cases hrd : isStrVal (r.get "type") "ready"
        · refine ⟨?_, ?_⟩
          · simp only [step, handleResponse, hm, hev, hrd]
            simp [GoodSt, ht, hn]
          · intro id
            simp [step, handleResponse, hm, hev, hrd, settleCount, acceptedAt]
        · refine ⟨?_, ?_⟩
          · simpa [step, handleResponse, hm, hev, hrd] using (⟨ht, hn⟩ : GoodSt s)
          · intro id
            simp [step, handleResponse, hm, hev, hrd, settleCount, acceptedAt]
    | some p =>
      obtain ⟨id', cmd⟩ := p
      have hlook : lookupEntry s.messageQueue id' = some cmd := respIdMatch_lookup hm
      refine ⟨⟨?_, ?_⟩, ?_⟩
      · simp [step, handleResponse, hm, ht]
      · simp [step, handleResponse, hm]
        exact nodup_keys_eraseEntry hn
      · intro id
        simp only [step, handleResponse, hm, settleCount, acceptedAt,
          List.countP_cons, List.countP_nil]
        by_cases hid : id' = id
        · subst hid
          have := @countKey_erase_self s.messageQueue id' (by simp [hlook])
          simp only [countKey] at this ⊢
          simp
          omega
        · have := @countKey_erase_ne s.messageQueue id' id (fun hh => hid hh.symm)
          simp only [countKey] at this ⊢
          simp [hid, this]
  | timerFire id' cmd =>
    by_cases hmem : (id', cmd) ∈ s.armedTimers
    · have hqmem : (id', cmd) ∈ s.messageQueue := ht ▸ hmem
      have hlook : (lookupEntry s.messageQueue id').isSome := lookup_isSome_of_mem hqmem
      refine ⟨⟨?_, ?_⟩, ?_⟩
      · simp [step, hmem, hqmem, timeoutFire, ht]
      · simp [step, hmem, hqmem, timeoutFire, ht]
        exact nodup_keys_eraseEntry hn
      · intro id
        simp only [step, timeoutFire, settleCount, acceptedAt,
          List.countP_cons, List.countP_nil, if_pos hmem]
        by_cases hid : id' = id
        · subst hid
          have := @countKey_erase_self s.messageQueue id' hlook
          simp only [countKey] at this ⊢
          simp
          omega
        · have := @countKey_erase_ne s.messageQueue id' id (fun hh => hid hh.symm)
          simp only [countKey] at this ⊢
          simp [hid, this]
    · refine ⟨?_, ?_⟩
      · simpa [step, hmem] using (⟨ht, hn⟩ : GoodSt s)
      · intro id
        simp [step, hmem, settleCount, acceptedAt]
  | procExited code =>
    refine ⟨⟨rfl, List.nodup_nil⟩, ?_⟩
    intro id
    have := settleCount_flatMap id s.messageQueue RemPath.reset
      (fun _ => Outcome.rejectErr (Json.str ("Python process exited with code " ++ toString code)))
    simp [step, procExit, countKey, acceptedAt]
    simpa [settleCount, countKey] using this
  | stopTail =>
    refine ⟨⟨rfl, List.nodup_nil⟩, ?_⟩
    intro id
    by_cases hc : s.hasProcess && !s.processKilled
    · have := settleCount_flatMap id s.messageQueue RemPath.reset
        (fun _ => Outcome.rejectErr (Json.str "Bridge stopped"))
      simp [step, stopSyncTail, hc, countKey, acceptedAt, settleCount,
        List.countP_append, List.countP_cons] at *
      omega
    · have := settleCount_flatMap id s.messageQueue RemPath.reset
        (fun _ => Outcome.rejectErr (Json.str "Bridge stopped"))
      simp [step, stopSyncTail, hc, countKey, acceptedAt, settleCount,
        List.countP_append, List.countP_cons] at *
      omega

theorem lookupEntry_append_self {l : List (String × String)} {id cmd : String}
    (h : lookupEntry l id = none) :
    lookupEntry (l ++ [(id, cmd)]) id = some cmd := by
  induction l with
  | nil => simp [lookupEntry]
  | cons p rest ih =>
    obtain ⟨k, v⟩ := p
    by_cases hk : k = id
    · simp [lookupEntry, hk] at h
    · simp only [lookupEntry, if_neg hk] at h
      simpa [lookupEntry, hk] using ih h

theorem FreshTrace_append_left :
    ∀ (p q : List Ev) (s : BridgeSt), FreshTrace s (p ++ q) → FreshTrace s p
  | [], _, _, _ => trivial
  | e :: p, q, s, h => ⟨h.1, FreshTrace_append_left p q (step s e).1 h.2⟩

/-- The correlator invariant and the settlement conservation law hold along
any trace of fresh-id events. -/
theorem runEvents_invariant (evs : List Ev) :
    ∀ (s : BridgeSt), GoodSt s → FreshTrace s evs →
      GoodSt (runEvents s evs).1 ∧
      ∀ id, settleCount id (runEvents s evs).2
          + countKey id (runEvents s evs).1.messageQueue
          = countKey id s.messageQueue + acceptedCount s evs id := by
  induction evs with
  | nil =>
    intro s hg _
    exact ⟨hg, by simp [runEvents, settleCount, acceptedCount]⟩
  | cons e es ih =>
    intro s hg hf
    obtain ⟨hfe, hfr⟩ := hf
    obtain ⟨hg1, hc1⟩ := step_invariant s e hg hfe
    obtain ⟨hg2, hc2⟩ := ih (step s e).1 hg1 hfr
    refine ⟨by simpa [runEvents] using hg2, ?_⟩
    intro id
    have h1 := hc1 id
    have h2 := hc2 id
    simp only [runEvents, acceptedCount, settleCount, List.countP_append] at *
    omega

/-! ### Chunk-boundary behaviour of the line splitter -/

theorem splitLines_ne_nil (l : List Char) : splitLines l ≠ [] := by
  cases l with
  | nil => simp [splitLines]
  | cons c rest =>
    by_cases hc : c = '\n'
    · simp [splitLines, hc]
    · simp only [splitLines, hc, if_false]
      cases splitLines rest <;> simp

/-- Splitting distributes over a newline junction: the text before an
explicit newline contributes exactly its own lines. -/
theorem splitLines_append_nl (zs ys : List Char) :
    splitLines (zs ++ '\n' :: ys) = splitLines zs ++ splitLines ys := by
  induction zs with
  | nil => simp [splitLines]
  | cons c zs ih =>
    by_cases hc : c = '\n'
    · subst hc
      simp [splitLines, ih]
    · have hne := splitLines_ne_nil zs
      cases hsz : splitLines zs with
      | nil => exact absurd hsz hne
      | cons l ls =>
        simp only [List.cons_append, splitLines, hc, if_false, List.append_eq]
        rw [ih, hsz]
        simp

/-- A chunk that ends exactly at a newline contributes its own kept lines,
independently of what follows. -/
theorem keptLines_chunk (zs ys : List Char) :
    keptLines ((zs ++ ['\n']) ++ ys) = keptLines (zs ++ ['\n']) ++ keptLines ys := by
  have h1 : (zs ++ ['\n']) ++ ys = zs ++ '\n' :: ys := by simp
  have h2 := splitLines_append_nl zs ys
  have h3 := splitLines_append_nl zs ([] : List Char)
  simp only [h1, keptLines, h2]
  simp only [show zs ++ ['\n'] = zs ++ '\n' :: ([] : List Char) from rfl, h3]
  simp [List.filter_append, keepLine, splitLines]

/-! ## Claim C1 -/

/-- Claim C1, removal-path clause as stated ("an entry is removed exactly
once, by exactly one of response delivery, timeout firing, or bridge
reset"): refuted.  When the outbound write throws, `executeCommand`
(bridge.js lines 94-98) itself removes the just-registered entry and rejects
it — a fourth removal path the claim's enumeration omits.  Concretely, a
single accepted command whose write throws `EPIPE` is settled via the
write-failure path. -/
theorem c1_counterexample :
    ¬ ∀ a ∈ (runEvents (runningBridge 30000)
        [Ev.exec "a" "get_status" (Except.error (Json.str "EPIPE"))]).2,
      ∀ id o, a ≠ Action.settle id RemPath.writeFailure o := by
  intro h
  have hacts : (runEvents (runningBridge 30000)
      [Ev.exec "a" "get_status" (Except.error (Json.str "EPIPE"))]).2
      = [Action.setTimer "a" 30000, Action.clearTimer "a",
         Action.settle "a" RemPath.writeFailure (Outcome.rejectErr (Json.str "EPIPE"))] := rfl
  exact h (Action.settle "a" RemPath.writeFailure (Outcome.rejectErr (Json.str "EPIPE")))
    (by rw [hacts]; simp) "a" (Outcome.rejectErr (Json.str "EPIPE")) rfl

/-- Claim C1 (amended: removal paths additionally include a failed outbound
write).  Along any trace of events whose command ids are fresh when
generated, starting from a state satisfying the correlator invariant:
(1) at every intermediate point the invariant holds — a correlation id is
pending at most once, and the armed per-request timers coincide with the
pending entries (so every settlement path has cancelled the settled entry's
timer, and a pending command's timeout timer stays armed, guaranteeing an
eventual settlement); (2) the settlement conservation law: per id, the
number of resolve/reject firings plus the entries still pending equals the
entries initially pending plus the commands accepted — hence every accepted
command is settled exactly once unless it is still pending, and never
twice. -/
theorem c1_single_settlement_invariant (s : BridgeSt) (evs : List Ev)
    (hg : GoodSt s) (hf : FreshTrace s evs) :
    (∀ p q, evs = p ++ q → GoodSt (runEvents s p).1) ∧
    (∀ id, settleCount id (runEvents s evs).2
         + countKey id (runEvents s evs).1.messageQueue
         = countKey id s.messageQueue + acceptedCount s evs id) := by
  refine ⟨?_, (runEvents_invariant evs s hg hf).2⟩
  intro p q hpq
  exact (runEvents_invariant p s hg (FreshTrace_append_left p q s (hpq ▸ hf))).1

/-- Witness for C1 at a concrete trace: a running bridge accepts one command
and receives its successful response. -/
theorem c1_single_settlement_invariant_witness :
    GoodSt (runningBridge 30000) ∧
    FreshTrace (runningBridge 30000) sampleTrace ∧
    ∀ id, settleCount id (runEvents (runningBridge 30000) sampleTrace).2
        + countKey id (runEvents (runningBridge 30000) sampleTrace).1.messageQueue
        = countKey id (runningBridge 30000).messageQueue
        + acceptedCount (runningBridge 30000) sampleTrace id :=
  ⟨by decide, by decide,
   (c1_single_settlement_invariant (runningBridge 30000) sampleTrace
     (by decide) (by decide)).2⟩

/-! ## Claim C2 -/

/-- Claim C2 as stated (the inbound parser buffers partial lines across
chunk boundaries, so parsed messages depend only on the concatenated
stream): refuted.  The handler splits every `data` chunk independently
(bridge.js line 150) and keeps no buffer, so the valid response line
`{"id":"a","status":"success"}\n` delivered split across two chunks parses
to no message at all, while the same bytes in one chunk parse to one
message. -/
theorem c2_counterexample :
    ¬ ∀ (c1 c2 : List (List Char)), c1.flatten = c2.flatten →
        parsedOfChunks c1 = parsedOfChunks c2 := by
  intro h
  have hsame : ([("\x7b\"id\":\"a\",".data), ("\"status\":\"success\"\x7d\n".data)]
        : List (List Char)).flatten
      = ([("\x7b\"id\":\"a\",\"status\":\"success\"\x7d\n".data)] : List (List Char)).flatten := by
    decide
  have heq := h _ _ hsame
  have h1 : parsedOfChunks [("\x7b\"id\":\"a\",".data), ("\"status\":\"success\"\x7d\n".data)]
      = [] := rfl
  have h2 : parsedOfChunks [("\x7b\"id\":\"a\",\"status\":\"success\"\x7d\n".data)]
      = [Json.obj [("id", Json.str "a"), ("status", Json.str "success")]] := rfl
  rw [h1, h2] at heq
  exact List.noConfusion heq

/-- Claim C2 (amended): the inbound handler does not buffer across chunk
boundaries — it splits each chunk independently; the sequence of parsed
messages therefore agrees with that of the concatenated stream exactly in
the newline-aligned case, i.e. whenever every chunk ends at the line
delimiter; a message line split across two chunks is dropped, not parsed
(see the counterexample). -/
theorem c2_newline_aligned_chunks (chunks : List (List Char))
    (h : ∀ c ∈ chunks, ∃ zs, c = zs ++ ['\n']) :
    parsedOfChunks chunks = parsedOfChunks [chunks.flatten] := by
  have key : ∀ (cs : List (List Char)), (∀ c ∈ cs, ∃ zs, c = zs ++ ['\n']) →
      cs.flatMap keptLines = keptLines cs.flatten := by
    intro cs
    induction cs with
    | nil => intro _; simp [keptLines, splitLines, keepLine]
    | cons c cs ih =>
      intro hall
      obtain ⟨zs, hz⟩ := hall c (by simp)
      subst hz
      simp only [List.flatMap_cons, List.flatten_cons]
      rw [keptLines_chunk zs cs.flatten,
        ih (fun d hd => hall d (List.mem_cons_of_mem _ hd))]
  simp [parsedOfChunks, key chunks h]

/-- Witness for C2 (amended) at two newline-terminated chunks. -/
theorem c2_newline_aligned_chunks_witness :
    (∀ c ∈ [("\x7b\"x\":1\x7d\n".data), ("null\n".data)], ∃ zs, c = zs ++ ['\n']) ∧
    parsedOfChunks [("\x7b\"x\":1\x7d\n".data), ("null\n".data)]
      = parsedOfChunks
          [([("\x7b\"x\":1\x7d\n".data), ("null\n".data)] : List (List Char)).flatten] := by
  have h : ∀ c ∈ [("\x7b\"x\":1\x7d\n".data), ("null\n".data)], ∃ zs, c = zs ++ ['\n'] := by
    intro c hc
    simp only [List.mem_cons, List.not_mem_nil, or_false] at hc
    rcases hc with rfl | rfl
    · exact ⟨"\x7b\"x\":1\x7d".data, by decide⟩
    · exact ⟨"null".data, by decide⟩
  exact ⟨h, c2_newline_aligned_chunks _ h⟩

/-! ## Claim C3 -/

/-- Claim C3 as stated (after an init-timeout failure of `start()` the
spawned worker is no longer running): refuted.  On the init-timeout path
`start()` only rethrows the wrapped error (bridge.js lines 59-61); nothing
kills or clears `this.process`, so the spawned worker is still alive. -/
theorem c3_counterexample :
    (startCall (initBridge 30000) false).2.2
      = Except.error "Failed to start Python bridge: Python bridge initialization timeout" ∧
    (startCall (initBridge 30000) false).1.processAlive = true :=
  ⟨rfl, rfl⟩

/-- Claim C3 (amended): if the worker never emits a Ready message, `start()`
fails with the wrapped initialization-timeout error, signalled by the init
timer armed for the configured `options.timeout` window — but the spawned
worker process is NOT terminated: it remains alive, no kill signal is sent,
and the bridge is simply left not running. -/
theorem c3_init_timeout_leaves_worker_alive (s : BridgeSt)
    (hr : s.isRunning = false) :
    (startCall s false).2.2
      = Except.error "Failed to start Python bridge: Python bridge initialization timeout" ∧
    Action.setTimer "init" s.timeoutMs ∈ (startCall s false).2.1 ∧
    (startCall s false).1.isRunning = false ∧
    (startCall s false).1.processAlive = true ∧
    ∀ sig, Action.killSig sig ∉ (startCall s false).2.1 := by
  simp [startCall, hr]

/-- Witness for C3 (amended) on a freshly constructed bridge. -/
theorem c3_init_timeout_leaves_worker_alive_witness :
    (initBridge 30000).isRunning = false ∧
    ((startCall (initBridge 30000) false).2.2
      = Except.error "Failed to start Python bridge: Python bridge initialization timeout" ∧
    Action.setTimer "init" (initBridge 30000).timeoutMs ∈ (startCall (initBridge 30000) false).2.1 ∧
    (startCall (initBridge 30000) false).1.isRunning = false ∧
    (startCall (initBridge 30000) false).1.processAlive = true ∧
    ∀ sig, Action.killSig sig ∉ (startCall (initBridge 30000) false).2.1) :=
  ⟨rfl, c3_init_timeout_leaves_worker_alive (initBridge 30000) rfl⟩

/-! ## Claim C4 -/

/-- Claim C4: when the worker process exits while commands are pending, the
exit handler clears every pending entry's timer, rejects each with the
error carrying that exit code, and leaves the pending map (and armed-timer
set) empty; per id, the number of settlements equals the number of entries
that were pending. -/
theorem c4_exit_rejects_all_pending (s : BridgeSt) (code : Int) :
    (procExit s code).1.messageQueue = [] ∧
    (procExit s code).1.armedTimers = [] ∧
    (∀ e ∈ s.messageQueue,
      Action.clearTimer e.1 ∈ (procExit s code).2 ∧
      Action.settle e.1 RemPath.reset
          (Outcome.rejectErr (Json.str ("Python process exited with code " ++ toString code)))
        ∈ (procExit s code).2) ∧
    ∀ id, settleCount id (procExit s code).2 = countKey id s.messageQueue := by
  refine ⟨rfl, rfl, ?_, ?_⟩
  · intro e he
    constructor
    · simp only [procExit, List.mem_flatMap]
      exact ⟨e, he, by simp⟩
    · simp only [procExit, List.mem_flatMap]
      exact ⟨e, he, by simp⟩
  · intro id
    simpa [procExit] using settleCount_flatMap id s.messageQueue RemPath.reset
      (fun _ => Outcome.rejectErr
        (Json.str ("Python process exited with code " ++ toString code)))

/-- Witness for C4: exit code 137 with two commands pending. -/
theorem c4_exit_rejects_all_pending_witness :
    (procExit { runningBridge 30000 with
        messageQueue := [("a", "get_status"), ("b", "start_server")],
        armedTimers := [("a", "get_status"), ("b", "start_server")] } 137).1.messageQueue
      = [] ∧
    ∀ id, settleCount id (procExit { runningBridge 30000 with
        messageQueue := [("a", "get_status"), ("b", "start_server")],
        armedTimers := [("a", "get_status"), ("b", "start_server")] } 137).2
      = countKey id [("a", "get_status"), ("b", "start_server")] :=
  ⟨(c4_exit_rejects_all_pending _ 137).1,
   (c4_exit_rejects_all_pending { runningBridge 30000 with
        messageQueue := [("a", "get_status"), ("b", "start_server")],
        armedTimers := [("a", "get_status"), ("b", "start_server")] } 137).2.2.2⟩

/-! ## Claim C5 -/

/-- Claim C5 as stated (a non-success status rejects with an error carrying
both the command name and the response's error field): refuted.  The code
rejects with `new Error(response.error || 'Unknown error')` (bridge.js
line 212): for the pending command `get_status` and error field `boom`, the
rejection payload is exactly the string `boom`, which does not contain the
command name. -/
theorem c5_counterexample :
    (handleResponse
        { runningBridge 30000 with
            messageQueue := [("a", "get_status")],
            armedTimers := [("a", "get_status")] }
        (Json.obj [("id", Json.str "a"), ("status", Json.str "error"),
          ("error", Json.str "boom")])).2
      = [Action.clearTimer "a",
         Action.settle "a" RemPath.responseDelivery
           (Outcome.rejectErr (Json.str "boom"))] ∧
    strContains "boom" "get_status" = false :=
  ⟨rfl, rfl⟩

/-- Claim C5 (amended): for a delivered Response whose id is pending, the
timer is cleared, the entry removed, and settlement follows the status
field: status `"success"` resolves with the response's `result` field when
that is truthy and with the entire response object otherwise; any other
status rejects with an error carrying the response's `error` field when
truthy and `"Unknown error"` otherwise — the command name is not included
in the rejection. -/
theorem c5_settlement_by_status (s : BridgeSt) (r : Json) (id cmd : String)
    (hid : r.get "id" = some (Json.str id)) (hne : id ≠ "")
    (hlk : lookupEntry s.messageQueue id = some cmd) :
    handleResponse s r
      = ({ s with messageQueue := eraseEntry s.messageQueue id,
                  armedTimers := eraseEntry s.armedTimers id },
         [Action.clearTimer id,
          Action.settle id RemPath.responseDelivery
            (if isStrVal (r.get "status") "success" then
              Outcome.resolveVal
                (if jsTruthy (r.get "result") then (r.get "result").getD Json.null else r)
            else
              Outcome.rejectErr
                (if jsTruthy (r.get "error") then (r.get "error").getD Json.null
                 else Json.str "Unknown error"))]) := by
  simp [handleResponse, respIdMatch, hid, hne, hlk]

/-- Witness for C5 (amended) at a concrete success response. -/
theorem c5_settlement_by_status_witness :
    ((Json.obj [("id", Json.str "a"), ("status", Json.str "success"),
        ("result", Json.str "ok")]).get "id" = some (Json.str "a") ∧
     lookupEntry [("a", "get_status")] "a" = some "get_status") ∧
    handleResponse
        { runningBridge 30000 with
            messageQueue := [("a", "get_status")],
            armedTimers := [("a", "get_status")] }
        (Json.obj [("id", Json.str "a"), ("status", Json.str "success"),
          ("result", Json.str "ok")])
      = ({ runningBridge 30000 with messageQueue := [], armedTimers := [] },
         [Action.clearTimer "a",
          Action.settle "a" RemPath.responseDelivery
            (Outcome.resolveVal (Json.str "ok"))]) := by
  refine ⟨⟨rfl, rfl⟩, ?_⟩
  have := c5_settlement_by_status
    { runningBridge 30000 with
        messageQueue := [("a", "get_status")], armedTimers := [("a", "get_status")] }
    (Json.obj [("id", Json.str "a"), ("status", Json.str "success"),
      ("result", Json.str "ok")])
    "a" "get_status" rfl (by decide) rfl
  simpa using this

/-! ## Claim C6 -/

/-- Claim C6: `executeCommand` registers the pending entry (map and timer)
strictly before the outbound write is attempted — at the write point the
entry is present under its id — and if the write throws, exactly that entry
is removed again, its timer cleared, and the caller rejected with the write
error; the rest of the pending map and timers are exactly as before the
call, so no orphaned entry survives a failed send. -/
theorem c6_write_failure_cleanup (s : BridgeSt) (id cmd : String) (e : Json)
    (hr : s.isRunning = true) (hg : GoodSt s)
    (hfresh : lookupEntry s.messageQueue id = none) :
    lookupEntry (execRegistered s id cmd).messageQueue id = some cmd ∧
    (executeCommand s id cmd (Except.error e)).1.messageQueue = s.messageQueue ∧
    (executeCommand s id cmd (Except.error e)).1.armedTimers = s.armedTimers ∧
    (executeCommand s id cmd (Except.error e)).2
      = [Action.setTimer id s.timeoutMs, Action.clearTimer id,
         Action.settle id RemPath.writeFailure (Outcome.rejectErr e)] := by
  obtain ⟨ht, hn⟩ := hg
  have hm := @mapSet_of_none s.messageQueue id cmd hfresh
  have her : eraseEntry (s.messageQueue ++ [(id, cmd)]) id = s.messageQueue :=
    eraseEntry_append_of_none hfresh
  refine ⟨?_, ?_, ?_, ?_⟩
  · simp [execRegistered, hm, lookupEntry_append_self hfresh]
  · simp [executeCommand, execRegistered, hr, hm, her]
  · simp [executeCommand, execRegistered, hr, hm, ht, her]
  · simp [executeCommand, execRegistered, hr]

/-- Witness for C6: a running bridge with one other command pending; the
write for a fresh second command throws. -/
theorem c6_write_failure_cleanup_witness :
    ((runningBridge 30000).isRunning = true ∧
     lookupEntry [("b", "start_server")] "a" = none) ∧
    lookupEntry (execRegistered { runningBridge 30000 with
        messageQueue := [("b", "start_server")],
        armedTimers := [("b", "start_server")] } "a" "get_status").messageQueue "a"
      = some "get_status" ∧
    (executeCommand { runningBridge 30000 with
        messageQueue := [("b", "start_server")],
        armedTimers := [("b", "start_server")] } "a" "get_status"
        (Except.error (Json.str "EPIPE"))).1.messageQueue
      = [("b", "start_server")] := by
  have h := c6_write_failure_cleanup
    { runningBridge 30000 with
        messageQueue := [("b", "start_server")], armedTimers := [("b", "start_server")] }
    "a" "get_status" (Json.str "EPIPE") rfl (by decide) rfl
  exact ⟨⟨rfl, rfl⟩, h.1, h.2.1⟩

/-! ## Claim C7 -/

/-- Claim C7 (code bug): `stop()` sends SIGTERM and schedules the 5000 ms
escalation check, but the check can never send SIGKILL — `stop()`
synchronously sets `this.process = null` (line 134) before the timer fires
(and `child.killed` is already true once SIGTERM was sent), so the
callback's guard `this.process && !this.process.killed` is false even when
the worker is still alive.  The claim (and spec §4.1) says SIGKILL is sent
after the grace period; the code never sends it. -/
theorem c7_sigkill_never_sent :
    (stopSyncTail (runningBridge 30000)).2
      = [Action.killSig "SIGTERM", Action.scheduleKillCheck 5000] ∧
    (stopSyncTail (runningBridge 30000)).1.processAlive = true ∧
    killCheckFire (stopSyncTail (runningBridge 30000)).1
      = ((stopSyncTail (runningBridge 30000)).1, []) :=
  ⟨rfl, rfl, rfl⟩

/-! ## Claim C8 -/

/-- Claim C8: a Response (a message with an id and no `type` field) whose id
is not in the pending map is silently dropped — processing it performs no
action, settles nothing, and leaves the whole bridge state unchanged. -/
theorem c8_unknown_id_dropped (s : BridgeSt) (r : Json) (id : String)
    (hid : r.get "id" = some (Json.str id))
    (hlk : lookupEntry s.messageQueue id = none)
    (hty : r.get "type" = none) :
    handleResponse s r = (s, []) := by
  simp [handleResponse, respIdMatch, hid, hlk, isStrVal, hty]

/-- Witness for C8: a late response for an id that already timed out. -/
theorem c8_unknown_id_dropped_witness :
    ((Json.obj [("id", Json.str "zz"), ("status", Json.str "success"),
        ("result", Json.str "ok")]).get "id" = some (Json.str "zz") ∧
     lookupEntry [("a", "get_status")] "zz" = none) ∧
    handleResponse
        { runningBridge 30000 with
            messageQueue := [("a", "get_status")],
            armedTimers := [("a", "get_status")] }
        (Json.obj [("id", Json.str "zz"), ("status", Json.str "success"),
          ("result", Json.str "ok")])
      = ({ runningBridge 30000 with
            messageQueue := [("a", "get_status")],
            armedTimers := [("a", "get_status")] }, []) :=
  ⟨⟨rfl, rfl⟩,
   c8_unknown_id_dropped _ _ "zz" rfl rfl rfl⟩

/-! ## Claim C9 -/

/-- Claim C9: `stop()` is idempotent.  Whatever a first `stop()` call did
(including the degenerate case where the bridge was already stopped), a
second `stop()` finds `isRunning` false, returns immediately without error,
performs no action at all — in particular sends no duplicate termination
signal — and leaves the state untouched. -/
theorem c9_stop_idempotent (s : BridgeSt) (p1 p2 : List Ev) :
    stopCall (stopCall s p1).1 p2 = ((stopCall s p1).1, []) := by
  have h : (stopCall s p1).1.isRunning = false := by
    by_cases hr : s.isRunning
    · simp [stopCall, hr, stopSyncTail]
    · simp only [stopCall, if_neg hr]
      simpa using hr
  generalize (stopCall s p1).1 = s1 at h ⊢
  simp [stopCall, h]

/-! ## Claim C10 -/

/-- Claim C10: calling `start()` while the bridge is already running throws
`Bridge is already running` immediately (the check precedes the `try`
block): no worker is spawned, nothing else is done, and the state — process,
pending map, running flag — is returned unchanged. -/
theorem c10_start_when_running_throws (s : BridgeSt) (readyArrives : Bool)
    (hr : s.isRunning = true) :
    startCall s readyArrives
      = (s, [Action.threw "Bridge is already running"],
         Except.error "Bridge is already running") := by
  simp [startCall, hr]

/-- Witness for C10 on a running bridge. -/
theorem c10_start_when_running_throws_witness :
    (runningBridge 30000).isRunning = true ∧
    startCall (runningBridge 30000) true
      = (runningBridge 30000, [Action.threw "Bridge is already running"],
         Except.error "Bridge is already running") :=
  ⟨rfl, c10_start_when_running_throws (runningBridge 30000) true rfl⟩

end NandaBridge
